import Mathlib

/-!
Verification of the RDMA socket-interception shim and its message ring.

The repository carries two generations of the LD_PRELOAD shim: the older
socket-overrides file (called `part_000` here) and the newer one with the
USE_RDMA address selector and fork-generation gating (`part_002`).  The
`RDMAMessageBuffer` core (the message ring with send / receive / hasData)
is not among the sources, only its callers and the project writeup are;
the ring is therefore modelled from the specification (sections 3, 4.2,
4.3 and 6 of the design document), and definitions taken from it carry a
doc comment starting with `Modelled from the spec:`.
-/

/-- Byte memory of a ring, as a map from physical offset to byte value. -/
abbrev RingMem : Type := Nat → Nat

/-- Point update of a ring memory at offset `j`. -/
def updateMem (m : RingMem) (j v : Nat) : RingMem :=
  fun i => if i = j then v else m i

/-- Modelled from the spec: the missing `RDMAMessageBuffer` write path places
consecutive bytes starting at counter position `pos`; the physical offset of a
counter value is `cursor % N` (the spec writes `cursor & (N − 1)` with `N` a
power of two, which is the same function). -/
def writeBytes (N : Nat) (m : RingMem) (pos : Nat) : List Nat → RingMem
  | [] => m
  | v :: rest => writeBytes N (updateMem m (pos % N) v) (pos + 1) rest

/-- Modelled from the spec: reading `len` consecutive ring bytes starting at
counter position `pos`. -/
def readBytes (N : Nat) (m : RingMem) (pos len : Nat) : List Nat :=
  (List.range len).map fun i => m ((pos + i) % N)

/-- Modelled from the spec: the fixed non-zero validity constant of the framing
(`footer == length XOR 0xDEADBEEF` in section 6). -/
def VALIDITY_MASK : Nat := 0xDEADBEEF

/-- Little-endian encoding of a 32-bit field into four bytes. -/
def encodeLE4 (x : Nat) : List Nat :=
  [x % 256, x / 256 % 256, x / 65536 % 256, x / 16777216 % 256]

/-- Little-endian decoding of the four ring bytes starting at counter
position `pos`. -/
def decodeLE4 (N : Nat) (m : RingMem) (pos : Nat) : Nat :=
  m (pos % N) + 256 * m ((pos + 1) % N) + 65536 * m ((pos + 2) % N) +
    16777216 * m ((pos + 3) % N)

/-- Modelled from the spec: the state of one direction of a missing
`RDMAMessageBuffer` ring, seen from the receiving side: the receive ring of
size `N`, the consumer's `readPos` and the producer's `writePos` (both 64-bit
monotonic counters, modelled as unbounded naturals). -/
structure RingState where
  N : Nat
  mem : RingMem
  readPos : Nat
  writePos : Nat

/-- Modelled from the spec: the state right after a successful handshake, with
zeroed ring memory and both cursors at zero. -/
def initRing (N : Nat) : RingState :=
  { N := N, mem := fun _ => 0, readPos := 0, writePos := 0 }

/-- Modelled from the spec: the physical bytes of one framed message, in
order: 4-byte little-endian `length`, the payload, and the 4-byte little-endian
validity footer `length XOR VALIDITY_MASK`.  A message logically occupies
`12 + length` bytes of counter space; the 4 bytes of slack behind the footer
stay zero. -/
def frameMsg (b : List Nat) : List Nat :=
  encodeLE4 b.length ++ b ++ encodeLE4 (b.length ^^^ VALIDITY_MASK)

/-- Modelled from the spec: the wrap policy of the send path.  If
`(writePos mod N) + 12 + length > N` the tail of the ring is treated as
padding and the message starts at the next wrap boundary. -/
def sendStart (s : RingState) (len : Nat) : Nat :=
  if s.N < s.writePos % s.N + 12 + len then
    s.writePos + (s.N - s.writePos % s.N)
  else s.writePos

/-- Modelled from the spec: the missing `RDMAMessageBuffer::send`.  The framed
message is serialised into the peer's ring in one unit and `writePos` advances
by `12 + length` plus any wrap padding.  Blocking on free space is a wait and
does not change what is written, so it is not part of the state function. -/
def sendMsg (s : RingState) (b : List Nat) : RingState :=
  { s with
    mem := writeBytes s.N s.mem (sendStart s b.length) (frameMsg b)
    writePos := sendStart s b.length + 12 + b.length }

/-- Outcome of one receive detection attempt of the modelled ring. -/
inductive RecvResult where
  | msg (payload : List Nat)
  | bufferTooSmall
  | noData
  | protocolError
  deriving DecidableEq

/-- Modelled from the spec: consuming a validated message of payload length
`len` found at counter position `pos`: copy the payload out, zero the header,
payload and footer bytes in place, and advance `readPos` by `12 + length`
plus any wrap padding already skipped (`pos - readPos`). -/
def consumeMsg (s : RingState) (pos len : Nat) : RecvResult × RingState :=
  (RecvResult.msg (readBytes s.N s.mem (pos + 4) len),
   { s with
     mem := writeBytes s.N s.mem pos (List.replicate (8 + len) 0)
     readPos := pos + 12 + len })

/-- Modelled from the spec: the detection algorithm of the missing
`RDMAMessageBuffer::receive` at counter position `pos`.  A zero header means
no data; a length larger than `N − 12` is a protocol error; a footer different
from `length XOR VALIDITY_MASK` means the message has not fully landed.  With
a capacity smaller than the payload the call fails with `BufferTooSmall` and
the ring state is returned unchanged; `cap = none` is the capacity-less
vector-returning variant used by the older shim. -/
def checkMsg (s : RingState) (cap : Option Nat) (pos : Nat) : RecvResult × RingState :=
  let len := decodeLE4 s.N s.mem pos
  if len = 0 then (RecvResult.noData, s)
  else if s.N - 12 < len then (RecvResult.protocolError, s)
  else if decodeLE4 s.N s.mem (pos + 4 + len) ≠ len ^^^ VALIDITY_MASK then
    (RecvResult.noData, s)
  else
    match cap with
    | some c => if c < len then (RecvResult.bufferTooSmall, s) else consumeMsg s pos len
    | none => consumeMsg s pos len

/-- Modelled from the spec: one receive attempt at the current `readPos`.
When the header is zero and not even a header fits before the wrap boundary,
the receiver skips the wrap padding and retries at the boundary.  The blocking
`receive` repeats this step until it produces something other than `noData`;
one step settles every claim below. -/
def receiveStep (s : RingState) (cap : Option Nat) : RecvResult × RingState :=
  if decodeLE4 s.N s.mem s.readPos = 0 ∧ s.N < s.readPos % s.N + 12 then
    checkMsg s cap (s.readPos + (s.N - s.readPos % s.N))
  else
    checkMsg s cap s.readPos

/-- Return value the shims use for reporting an error. -/
def ERROR : Int := -1

/-- Return value the shims use for reporting success. -/
def SUCCESS : Int := 0

/-- The `read` override of the older shim (part_000, lines 119-131) on a
bridged descriptor: it calls the capacity-less `receive()`, which consumes the
message from the ring, and only afterwards compares the message size against
the caller's capacity, returning `ERROR` when the buffer is too small.  The
result is `none` when no message is available and the call keeps blocking. -/
def read_p0_bridged (s : RingState) (cap : Nat) : Option (Int × RingState) :=
  match receiveStep s none with
  | (RecvResult.msg payload, t) =>
      some (if cap < payload.length then ERROR else (payload.length : Int), t)
  | _ => none

/-- The `write` override of the older shim (part_000, lines 109-117) on a
bridged descriptor: it sends the whole payload and then returns `SUCCESS`,
which is the constant `0`, not the byte count. -/
def write_p0_bridged (s : RingState) (b : List Nat) : Int × RingState :=
  (SUCCESS, sendMsg s b)

/-- The `write` override of the newer shim (part_002, lines 139-143) on a
bridged descriptor: it sends the whole payload and returns `requested_bytes`. -/
def write_p2_bridged (s : RingState) (b : List Nat) : Int × RingState :=
  ((b.length : Int), sendMsg s b)

/-- Ring state left behind by `read_p0_bridged`, or the input state when that
call would block. -/
def afterRead_p0 (s : RingState) (cap : Nat) : RingState :=
  match read_p0_bridged s cap with
  | some (_, t) => t
  | none => s

/-- The `SOCK_STREAM` constant (value 1 on the targeted platforms). -/
def SOCK_STREAM : Int := 1

/-- The `AF_INET` constant (value 2 on the targeted platforms). -/
def AF_INET : Int := 2

/-- The interception condition of the older shim's `accept` (part_000, lines
33-57): the code stores the *return status* of `real::getsockopt` (0 on
success, negative on failure) in `socketType` and compares that status — not
the queried `SO_TYPE` option — with `SOCK_STREAM`, so on a successful call the
comparison is `0 == 1` and the condition never holds: part_000 bridges no
socket.  (part_002's `isTcpSocket` fixed exactly this by assigning the option
value.) -/
def intercept_p0 (sockoptStatus family : Int) : Bool :=
  sockoptStatus == SOCK_STREAM && family == AF_INET

/-- The `accept` override of the older shim (part_000, lines 27-65).
Parameters record the outcomes of the calls it makes: the descriptor returned
by `real::accept`, the return status of `real::getsockopt` (which the code
itself compares with `SOCK_STREAM`, see `intercept_p0`), whether
`getsockname` succeeds, the address family it reports, and whether the
`RDMAMessageBuffer` constructor succeeds (its failure is caught and answered
with `ERROR`; with the real `getsockopt` returning 0 on success this branch
is unreachable).  It returns the result handed to the application together
with the bridge map. -/
def accept_p0 (clientSocket sockoptStatus : Int) (socknameOk : Bool)
    (family : Int) (ctorOk : Bool) (bridge : List Int) : Int × List Int :=
  if clientSocket < 0 then (ERROR, bridge)
  else if sockoptStatus < 0 then (ERROR, bridge)
  else if ¬socknameOk then (ERROR, bridge)
  else if ¬intercept_p0 sockoptStatus family then (SUCCESS, bridge)
  else if ctorOk then (SUCCESS, clientSocket :: bridge)
  else (ERROR, bridge)

/-- The `close` override of the older shim (part_000, lines 135-152): the
bridge entry of `fd` is erased, destroying its ring. -/
def close_p0 (bridge : List Int) (fd : Int) : List Int :=
  bridge.erase fd

/-- The `getRDMAReachable` helper of the newer shim (part_002, lines 60-69):
with `USE_RDMA` unset it returns the zero-initialised address, i.e. `0.0.0.0`;
otherwise the address parsed by `inet_pton`.  `env` is the parsed `s_addr`
value of the configured IPv4 address when the variable is set. -/
def getRDMAReachable (env : Option Nat) : Nat :=
  match env with
  | none => 0
  | some a => a

/-- The `shouldClientIntercept` policy of the newer shim (part_002, lines
87-101): a TCP `AF_INET` socket is intercepted exactly when its connected peer
address equals the address from `getRDMAReachable`. -/
def shouldClientIntercept (isTcp : Bool) (env : Option Nat) (peerAddr : Nat) : Bool :=
  isTcp && (peerAddr == getRDMAReachable env)

/-- The `shouldServerIntercept` policy of the newer shim (part_002, lines
71-85): same comparison, applied to the peer address of the accepted client
socket. -/
def shouldServerIntercept (isTcpServer : Bool) (env : Option Nat) (clientPeerAddr : Nat) : Bool :=
  isTcpServer && (clientPeerAddr == getRDMAReachable env)

/-- The `accept` override of the newer shim (part_002, lines 104-116): a
failed `real::accept` is an error; a connection that is not intercepted
answers `SUCCESS` (the constant `0`); an intercepted connection is recorded in
`rdmableSockets` and the client descriptor is returned. -/
def accept_p2 (clientSocket : Int) (intercept : Bool) (rdmable : List Int) :
    Int × List Int :=
  if clientSocket < 0 then (ERROR, rdmable)
  else if intercept then (clientSocket, clientSocket :: rdmable)
  else (SUCCESS, rdmable)

/-- Global state of the newer shim: the bridge map of live rings, the set of
sockets marked RDMA-capable, the `dontCloseRDMA` flag and the fork-generation
counter. -/
structure ShimState where
  bridge : List Nat
  rdmable : List Nat
  dontCloseRDMA : Bool
  forkGeneration : Nat
  deriving DecidableEq

/-- Initial value of the newer shim's `dontCloseRDMA` flag (part_002, line
16): `true`, with the comment that RDMA connections are never closed as long
as the deallocation errors persist. -/
def dontCloseRDMA_init : Bool := true

/-- Routing outcome of the newer shim's `write` (and the identically
structured `read`) on part_002, lines 139-152. -/
inductive WriteResult where
  | rdma (n : Nat)
  | established (n : Nat)
  | ctorThrow
  | tcp
  deriving DecidableEq

/-- The `write` override of the newer shim (part_002, lines 139-152): a
bridged descriptor is served by the ring and the call returns
`requested_bytes` (`rdma n`); otherwise, when the fork generation matches the
`RDMA_FORKGEN` target and the descriptor is marked RDMA-capable, the ring is
constructed lazily and the recursive call then serves it (`established n`) —
unless the constructor, which is not guarded by any handler here, throws
(`ctorThrow`); in every other case the call falls through to `real::write`
(`tcp`).  The `read` override has the same dispatch. -/
def write_p2 (s : ShimState) (target : Nat) (ctorOk : Bool) (fd n : Nat) :
    WriteResult :=
  if fd ∈ s.bridge then WriteResult.rdma n
  else if s.forkGeneration = target ∧ fd ∈ s.rdmable then
    (if ctorOk then WriteResult.established n else WriteResult.ctorThrow)
  else WriteResult.tcp

/-- State change of the newer shim's lazy establishment in `write`/`read`:
the descriptor moves from `rdmableSockets` into the bridge. -/
def write_p2_state (s : ShimState) (target : Nat) (fd : Nat) : ShimState :=
  if fd ∈ s.bridge then s
  else if s.forkGeneration = target ∧ fd ∈ s.rdmable then
    { s with rdmable := s.rdmable.erase fd, bridge := fd :: s.bridge }
  else s

/-- The `close` override of the newer shim (part_002, lines 169-175): the
bridge entry is erased only when `dontCloseRDMA` is false; the underlying TCP
descriptor is closed regardless. -/
def close_p2 (s : ShimState) (fd : Nat) : ShimState :=
  if s.dontCloseRDMA then s else { s with bridge := s.bridge.erase fd }

/-- The `fork` override of the newer shim (part_002, lines 257-264): it sets
`dontCloseRDMA`, calls `real::fork`, and increments `forkGeneration` in the
child only.  The result is the pair (parent state, child state). -/
def fork_p2 (s : ShimState) : ShimState × ShimState :=
  ({ s with dontCloseRDMA := true },
   { s with dontCloseRDMA := true, forkGeneration := s.forkGeneration + 1 })

/-- The `POLLIN` event bit. -/
def POLLIN : Nat := 1

/-- The `POLLOUT` event bit. -/
def POLLOUT : Nat := 4

/-- One entry of the `pollfd` array. -/
structure PollFd where
  fd : Nat
  events : Nat
  revents : Nat
  deriving DecidableEq

/-- One full loop of the newer shim's `poll` over an all-RDMA descriptor
array (part_002, lines 283-295): an entry requesting `POLLIN` counts and
flags when its ring has data; an entry requesting `POLLOUT` counts and flags
unconditionally.  Returns the number of events counted in this pass and the
updated entries. -/
def rdmaPass (hasData : Nat → Bool) : List PollFd → Nat × List PollFd
  | [] => (0, [])
  | p :: rest =>
    ((if (if hasData p.fd then p.events &&& POLLIN else 0) ≠ 0 then 1 else 0)
        + (if p.events &&& POLLOUT ≠ 0 then 1 else 0) + (rdmaPass hasData rest).1,
     { p with
       revents := p.revents ||| (if hasData p.fd then p.events &&& POLLIN else 0)
         ||| (p.events &&& POLLOUT) } :: (rdmaPass hasData rest).2)

/-- The do-while loop of the newer shim's `poll` (part_002, lines 283-298):
passes accumulate into `event_count`; the loop exits as soon as the count is
positive, and otherwise repeats while the elapsed time still exceeds the
timeout (`keepWaiting i` models that comparison at iteration `i`).  `fuel`
bounds the unrolling; `none` means the loop has not exited within the fuel,
i.e. the call is still waiting. -/
def pollLoop (hasData : Nat → Bool) (keepWaiting : Nat → Bool) :
    Nat → Nat → Nat → List PollFd → Option (Nat × List PollFd)
  | 0, _, _, _ => none
  | fuel + 1, iter, count, fds =>
    if 0 < count + (rdmaPass hasData fds).1 then
      some (count + (rdmaPass hasData fds).1, (rdmaPass hasData fds).2)
    else if keepWaiting iter then
      pollLoop hasData keepWaiting fuel (iter + 1)
        (count + (rdmaPass hasData fds).1) (rdmaPass hasData fds).2
    else some (count + (rdmaPass hasData fds).1, (rdmaPass hasData fds).2)

/-- Final loop of the newer shim's `poll` (part_002, lines 306-308): every
entry's `revents` is reset to `0` before returning. -/
def zeroRevents (fds : List PollFd) : List PollFd :=
  fds.map fun p => { p with revents := 0 }

/-- Effect of `real::poll` on the entries, with `g i` the `revents` value the
kernel reports for entry `i`. -/
def applyReal (g : Nat → Nat) (fds : List PollFd) : List PollFd :=
  List.zipWith (fun p i => { p with revents := g i }) fds (List.range fds.length)

/-- Result of the overridden `poll`: a return value with the final entries,
or divergence (the busy loop never exits). -/
inductive PollReturn where
  | ret (n : Int) (fds : List PollFd)
  | diverge
  deriving DecidableEq

/-- Count returned by a `poll` result; only used on results known to be
`ret`. -/
def PollReturn.count : PollReturn → Int
  | PollReturn.ret n _ => n
  | PollReturn.diverge => -2

/-- The `poll` override of the newer shim (part_002, lines 266-311).  An empty
array returns `0` at once.  If no descriptor is bridged the call forwards to
`real::poll` (`realN` and `realRe` model its return value and the `revents` it
writes).  If every descriptor is bridged the busy loop runs.  Mixed arrays
print a complaint and return `ERROR` immediately — before the final loop, so
the entries keep whatever `revents` they carried.  All other paths pass
through the final loop that zeroes every `revents`. -/
def poll_p2 (bridge : List Nat) (hasData : Nat → Bool) (keepWaiting : Nat → Bool)
    (realN : Int) (realRe : Nat → Nat) (fuel : Nat) (fds : List PollFd) :
    PollReturn :=
  if fds.isEmpty then PollReturn.ret 0 fds
  else if fds.all (fun p => decide (p.fd ∉ bridge)) then
    PollReturn.ret realN (zeroRevents (applyReal realRe fds))
  else if fds.all (fun p => decide (p.fd ∈ bridge)) then
    match pollLoop hasData keepWaiting fuel 0 0 fds with
    | some (c, fds2) => PollReturn.ret (Int.ofNat c) (zeroRevents fds2)
    | none => PollReturn.diverge
  else PollReturn.ret ERROR fds

/-! ## Helper lemmas about the ring embedding -/

/-- Adding a step `0 < k < N` to a counter changes its physical offset. -/
theorem mod_add_ne (N pos k : Nat) (hk0 : 0 < k) (hkN : k < N) :
    (pos + k) % N ≠ pos % N := by
  intro h
  have h2 : pos ≡ pos + k [MOD N] := h.symm
  have hd := (Nat.modEq_iff_dvd' (Nat.le_add_right pos k)).mp h2
  simp only [Nat.add_sub_cancel_left] at hd
  exact absurd (Nat.le_of_dvd hk0 hd) (Nat.not_le.mpr hkN)

/-- Offsets not written by `writeBytes` keep their previous value. -/
theorem writeBytes_frame (N : Nat) :
    ∀ (data : List Nat) (m : RingMem) (pos j : Nat),
      (∀ i, i < data.length → (pos + i) % N ≠ j) →
      writeBytes N m pos data j = m j := by
  intro data
  induction data with
  | nil => intro m pos j _; rfl
  | cons v rest ih =>
    intro m pos j h
    show writeBytes N (updateMem m (pos % N) v) (pos + 1) rest j = m j
    rw [ih (updateMem m (pos % N) v) (pos + 1) j ?later]
    case later =>
      intro i hi
      have := h (i + 1) (by simpa using Nat.succ_lt_succ hi)
      rwa [show pos + (i + 1) = pos + 1 + i by omega] at this
    have h0 := h 0 (by simp)
    simp only [Nat.add_zero] at h0
    simp [updateMem, Ne.symm h0]

/-- A block of at most `N` bytes written by `writeBytes` can be read back
byte for byte: the write offsets are pairwise distinct modulo `N`. -/
theorem writeBytes_agree (N : Nat) :
    ∀ (data : List Nat), data.length ≤ N →
    ∀ (m : RingMem) (pos i : Nat), i < data.length →
      writeBytes N m pos data ((pos + i) % N) = data.getD i 0 := by
  intro data
  induction data with
  | nil => intro _ m pos i hi; simp at hi
  | cons v rest ih =>
    intro hN m pos i hi
    cases i with
    | zero =>
      show writeBytes N (updateMem m (pos % N) v) (pos + 1) rest ((pos + 0) % N) = v
      rw [writeBytes_frame N rest (updateMem m (pos % N) v) (pos + 1) _ ?noclash]
      case noclash =>
        intro k hk
        rw [show pos + 1 + k = pos + (1 + k) by omega, Nat.add_zero]
        exact mod_add_ne N pos (1 + k) (by omega)
          (by simp only [List.length_cons] at hN; omega)
      simp [updateMem, Nat.add_zero]
    | succ i2 =>
      show writeBytes N (updateMem m (pos % N) v) (pos + 1) rest ((pos + (i2 + 1)) % N)
        = rest.getD i2 0
      rw [show pos + (i2 + 1) = pos + 1 + i2 by omega]
      exact ih (by simp only [List.length_cons] at hN; omega)
        (updateMem m (pos % N) v) (pos + 1) i2 (by simpa using hi)

/-- Decoding four bytes that hold the little-endian encoding of a 32-bit
value gives the value back. -/
theorem decodeLE4_parts (N : Nat) (m : RingMem) (pos x : Nat) (hx : x < 2 ^ 32)
    (h0 : m (pos % N) = x % 256)
    (h1 : m ((pos + 1) % N) = x / 256 % 256)
    (h2 : m ((pos + 2) % N) = x / 65536 % 256)
    (h3 : m ((pos + 3) % N) = x / 16777216 % 256) :
    decodeLE4 N m pos = x := by
  unfold decodeLE4
  rw [h0, h1, h2, h3]
  omega

/-- The framed message written out as a cons list. -/
theorem frameMsg_eq_cons (b : List Nat) :
    frameMsg b = b.length % 256 :: b.length / 256 % 256 :: b.length / 65536 % 256 ::
      b.length / 16777216 % 256 :: (b ++ encodeLE4 (b.length ^^^ VALIDITY_MASK)) := by
  simp [frameMsg, encodeLE4]

/-- A framed message takes `8 + length` physical bytes. -/
theorem frameMsg_length (b : List Nat) : (frameMsg b).length = 8 + b.length := by
  rw [frameMsg_eq_cons]
  simp [encodeLE4]
  omega

/-- The first four frame bytes are the encoded length header. -/
theorem frameMsg_getD_header (b : List Nat) (j : Nat) (hj : j < 4) :
    (frameMsg b).getD j 0 = (encodeLE4 b.length).getD j 0 := by
  rw [frameMsg_eq_cons]
  interval_cases j <;> simp [encodeLE4]

/-- Frame bytes `4` through `4 + length − 1` are the payload. -/
theorem frameMsg_getD_payload (b : List Nat) (i : Nat) (hi : i < b.length) :
    (frameMsg b).getD (4 + i) 0 = b.getD i 0 := by
  rw [frameMsg_eq_cons, show 4 + i = i + 1 + 1 + 1 + 1 by omega]
  simp only [List.getD_cons_succ]
  rw [List.getD_append _ _ _ _ hi]

/-- Frame bytes starting at `4 + length` are the encoded validity footer. -/
theorem frameMsg_getD_footer (b : List Nat) (j : Nat) :
    (frameMsg b).getD (4 + b.length + j) 0
      = (encodeLE4 (b.length ^^^ VALIDITY_MASK)).getD j 0 := by
  rw [frameMsg_eq_cons, show 4 + b.length + j = b.length + j + 1 + 1 + 1 + 1 by omega]
  simp only [List.getD_cons_succ]
  rw [List.getD_append_right _ _ _ _ (Nat.le_add_right _ _)]
  simp

/-- Every entry coming out of the final zeroing loop has `revents = 0`. -/
theorem zeroRevents_mem (fds : List PollFd) : ∀ p ∈ zeroRevents fds, p.revents = 0 := by
  intro p hp
  obtain ⟨q, _, rfl⟩ := List.mem_map.mp hp
  rfl

/-- An entry requesting `POLLOUT` makes the pass count positive, whatever the
rings' readiness. -/
theorem rdmaPass_pos (hasData : Nat → Bool) :
    ∀ (fds : List PollFd), (∃ p ∈ fds, p.events &&& POLLOUT ≠ 0) →
      0 < (rdmaPass hasData fds).1 := by
  intro fds
  induction fds with
  | nil => rintro ⟨p, hp, _⟩; simp at hp
  | cons p rest ih =>
    rintro ⟨q, hq, hqout⟩
    show 0 < (if _ ≠ 0 then 1 else 0) + (if p.events &&& POLLOUT ≠ 0 then 1 else 0)
      + (rdmaPass hasData rest).1
    rcases List.mem_cons.mp hq with rfl | hmem
    · rw [if_pos hqout]
      omega
    · have := ih ⟨q, hmem, hqout⟩
      omega

/-! ## Claims -/

/-- C1: for every byte sequence `b` with `1 ≤ |b| ≤ N − 12`, sending `b` on
one endpoint of a freshly established ring and then receiving on the peer
endpoint yields exactly the bytes `b` — same length, same contents.  (`N` is
bounded by `2 ^ 32` because the length header is a 4-byte field; `c` is any
sufficient destination capacity.) -/
theorem C1_round_trip (N : Nat) (b : List Nat) (c : Nat)
    (h1 : 1 ≤ b.length) (h2 : b.length ≤ N - 12) (h3 : N ≤ 2 ^ 32)
    (hc : b.length ≤ c) :
    (receiveStep (sendMsg (initRing N) b) (some c)).1 = RecvResult.msg b := by
  have hN : 12 + b.length ≤ N := by omega
  have hlen32 : b.length < 2 ^ 32 := by omega
  have hstart : sendStart (initRing N) b.length = 0 := by
    unfold sendStart initRing
    simp only [Nat.zero_mod]
    rw [if_neg (by omega)]
  have hs : sendMsg (initRing N) b =
      { N := N, mem := writeBytes N (fun _ => 0) 0 (frameMsg b), readPos := 0,
        writePos := 0 + 12 + b.length } := by
    unfold sendMsg
    rw [hstart]
    rfl
  set m2 : RingMem := writeBytes N (fun _ => 0) 0 (frameMsg b) with hm2
  have hmem : ∀ k, k < 8 + b.length → m2 k = (frameMsg b).getD k 0 := by
    intro k hk
    have h := writeBytes_agree N (frameMsg b) (by rw [frameMsg_length]; omega)
      (fun _ => 0) 0 k (by rw [frameMsg_length]; omega)
    rwa [Nat.zero_add, Nat.mod_eq_of_lt (by omega)] at h
  have hhead : decodeLE4 N m2 0 = b.length := by
    apply decodeLE4_parts N m2 0 b.length hlen32
    · rw [Nat.zero_mod, hmem 0 (by omega), frameMsg_getD_header b 0 (by omega)]
      simp [encodeLE4]
    · rw [Nat.zero_add, Nat.mod_eq_of_lt (by omega), hmem 1 (by omega),
        frameMsg_getD_header b 1 (by omega)]
      simp [encodeLE4]
    · rw [Nat.zero_add, Nat.mod_eq_of_lt (by omega), hmem 2 (by omega),
        frameMsg_getD_header b 2 (by omega)]
      simp [encodeLE4]
    · rw [Nat.zero_add, Nat.mod_eq_of_lt (by omega), hmem 3 (by omega),
        frameMsg_getD_header b 3 (by omega)]
      simp [encodeLE4]
  have hfv32 : b.length ^^^ VALIDITY_MASK < 2 ^ 32 :=
    Nat.bitwise_lt hlen32 (by norm_num [VALIDITY_MASK])
  have hfoot : decodeLE4 N m2 (0 + 4 + b.length) = b.length ^^^ VALIDITY_MASK := by
    apply decodeLE4_parts N m2 _ _ hfv32
    · rw [Nat.mod_eq_of_lt (by omega), show 0 + 4 + b.length = 4 + b.length + 0 by omega,
        hmem _ (by omega), frameMsg_getD_footer b 0]
      simp [encodeLE4]
    · rw [Nat.mod_eq_of_lt (by omega), show 0 + 4 + b.length + 1 = 4 + b.length + 1 by omega,
        hmem _ (by omega), frameMsg_getD_footer b 1]
      simp [encodeLE4]
    · rw [Nat.mod_eq_of_lt (by omega), show 0 + 4 + b.length + 2 = 4 + b.length + 2 by omega,
        hmem _ (by omega), frameMsg_getD_footer b 2]
      simp [encodeLE4]
    · rw [Nat.mod_eq_of_lt (by omega), show 0 + 4 + b.length + 3 = 4 + b.length + 3 by omega,
        hmem _ (by omega), frameMsg_getD_footer b 3]
      simp [encodeLE4]
  have hpay : readBytes N m2 (0 + 4) b.length = b := by
    apply List.ext_getElem
    · simp [readBytes]
    · intro i hi1 hi2
      simp only [readBytes, List.getElem_map, List.getElem_range]
      rw [show 0 + 4 + i = 4 + i by omega, Nat.mod_eq_of_lt (by omega),
        hmem _ (by omega), frameMsg_getD_payload b i hi2, List.getD_eq_getElem _ _ hi2]
  rw [hs]
  simp only [receiveStep, checkMsg, consumeMsg]
  simp only [hhead, Nat.zero_mod]
  rw [if_neg (by omega), if_neg (by omega), if_neg (by omega),
    if_neg (by rw [hfoot]; simp), if_neg (by omega)]
  rw [hpay]

/-- Witness for C1 at the spec's first concrete scenario: sending the five
bytes of "hello" on a fresh ring and receiving with capacity 16 returns
exactly those five bytes. -/
theorem C1_round_trip_witness :
    (receiveStep (sendMsg (initRing 4096) [104, 101, 108, 108, 111]) (some 16)).1
      = RecvResult.msg [104, 101, 108, 108, 111] :=
  C1_round_trip 4096 [104, 101, 108, 108, 111] 16 (by decide) (by decide)
    (by norm_num) (by decide)

/-- C2: the claim says a too-small destination leaves the message unread and
retryable, and in particular that the shim's `read` must not consume or
discard it.  The older shim's `read` does the opposite: with a 10-byte message
pending and capacity 4 it returns `ERROR`, and the retry with ample capacity
finds the ring empty — the message was consumed and dropped. -/
theorem C2_read_discards_pending_message :
    (read_p0_bridged (sendMsg (initRing 64) [1, 2, 3, 4, 5, 6, 7, 8, 9, 10]) 4).map
        Prod.fst = some ERROR
      ∧ (receiveStep
          (afterRead_p0 (sendMsg (initRing 64) [1, 2, 3, 4, 5, 6, 7, 8, 9, 10]) 4)
          (some 64)).1 = RecvResult.noData := by
  decide

/-- C3: the claim says that whenever ring construction fails the shim falls
back to plain TCP on that descriptor without reporting an error.  In the
newer shim the only construction site — the lazily establishing `write`
(and the identical `read`) — has no exception handler, so a constructor
failure escapes the call instead of the I/O being routed to `real::write`.
(In the older shim ring construction is unreachable: its stream-type check
compares the `getsockopt` return status with `SOCK_STREAM`, so at the same
input `accept` returns `SUCCESS` without ever constructing — third
conjunct.) -/
theorem C3_ctor_failure_escapes_write :
    write_p2 { bridge := [], rdmable := [4], dontCloseRDMA := true
               forkGeneration := 1 } 1 false 4 10 = WriteResult.ctorThrow
      ∧ WriteResult.ctorThrow ≠ WriteResult.tcp
      ∧ accept_p0 7 0 true AF_INET false [] = (SUCCESS, []) := by
  decide

/-- C4 counterexample: in the newer shim, closing bridged descriptor 5 leaves
its MessageRing alive — the bridge entry survives `close`, refuting the claim
that after `close(fd)` no ring object for `fd` remains. -/
theorem C4_close_keeps_ring :
    5 ∈ (close_p2 { bridge := [5], rdmable := [], dontCloseRDMA := dontCloseRDMA_init
                    forkGeneration := 0 } 5).bridge := by
  decide

/-- C4 amended: in the newer shim, `close(fd)` destroys the ring only when
`dontCloseRDMA` is false; since the shim starts with `dontCloseRDMA = true`
and `fork` only ever sets it to true again, the ring for `fd` remains alive
after `close(fd)` and only the underlying TCP descriptor is closed.  (The
older shim's `close` does erase its bridge entry.) -/
theorem C4_amended_close_never_destroys (s : ShimState) (fd : Nat) (b : List Int)
    (g : Int) (h : s.dontCloseRDMA = true) :
    close_p2 s fd = s
      ∧ (fork_p2 s).1.dontCloseRDMA = true
      ∧ (fork_p2 s).2.dontCloseRDMA = true
      ∧ dontCloseRDMA_init = true
      ∧ close_p0 b g = b.erase g := by
  refine ⟨?_, rfl, rfl, rfl, rfl⟩
  unfold close_p2
  rw [if_pos h]

/-- Witness for C4 amended: closing descriptor 5 with the initial flag value
leaves the shim state untouched. -/
theorem C4_amended_close_never_destroys_witness :
    close_p2 { bridge := [5], rdmable := [], dontCloseRDMA := true
               forkGeneration := 0 } 5
        = { bridge := [5], rdmable := [], dontCloseRDMA := true
            forkGeneration := 0 }
      ∧ close_p0 [7] 7 = [] :=
  ⟨(C4_amended_close_never_destroys
      { bridge := [5], rdmable := [], dontCloseRDMA := true, forkGeneration := 0 }
      5 [7] 7 rfl).1,
   (C4_amended_close_never_destroys
      { bridge := [5], rdmable := [], dontCloseRDMA := true, forkGeneration := 0 }
      5 [7] 7 rfl).2.2.2.2⟩

/-- C5 counterexample: the older shim's `write` on a bridged descriptor does
not report the full count to the caller — for the five-byte payload it
returns `SUCCESS`, i.e. `0`, not `5`. -/
theorem C5_p0_write_reports_zero :
    (write_p0_bridged (initRing 64) [1, 2, 3, 4, 5]).1
      ≠ (([1, 2, 3, 4, 5] : List Nat).length : Int) := by
  decide

/-- C5 amended: a bridged `write`/`send` is never partial — the entire
payload is serialised into the peer's ring in one framed message; the newer
shim's `write` reports the full count `n` to the caller, while the older
shim's `write` reports `0` (`SUCCESS`), never a smaller positive count. -/
theorem C5_amended_no_partial_send (s : RingState) (b : List Nat)
    (h : 12 + b.length ≤ s.N) :
    (write_p2_bridged s b).1 = (b.length : Int)
      ∧ (write_p0_bridged s b).1 = 0
      ∧ readBytes s.N (sendMsg s b).mem (sendStart s b.length + 4) b.length = b := by
  refine ⟨rfl, rfl, ?_⟩
  apply List.ext_getElem
  · simp [readBytes]
  · intro i hi1 hi2
    simp only [readBytes, List.getElem_map, List.getElem_range, sendMsg]
    rw [show sendStart s b.length + 4 + i = sendStart s b.length + (4 + i) by omega]
    rw [writeBytes_agree s.N (frameMsg b) (by rw [frameMsg_length]; omega) s.mem _
      (4 + i) (by rw [frameMsg_length]; omega)]
    rw [frameMsg_getD_payload b i hi2, List.getD_eq_getElem _ _ hi2]

/-- Witness for C5 amended at a concrete ring and payload. -/
theorem C5_amended_no_partial_send_witness :
    (write_p2_bridged (initRing 64) [9, 8, 7]).1 = (([9, 8, 7] : List Nat).length : Int)
      ∧ (write_p0_bridged (initRing 64) [9, 8, 7]).1 = 0
      ∧ readBytes 64 (sendMsg (initRing 64) [9, 8, 7]).mem
          (sendStart (initRing 64) 3 + 4) 3 = [9, 8, 7] :=
  C5_amended_no_partial_send (initRing 64) [9, 8, 7] (by decide)

/-- C6 counterexample: the claim says that with `USE_RDMA` unset no socket is
ever intercepted.  But the newer shim then compares the connected peer
address against the zero-initialised `0.0.0.0`, so a TCP socket whose peer
address is `0` is still intercepted. -/
theorem C6_interception_without_env :
    shouldClientIntercept true none 0 = true := by
  decide

/-- C6 amended: in the newer shim a socket is selected for RDMA exactly when
it is an `AF_INET` stream socket whose connected peer address equals
`getRDMAReachable` of the environment — the parsed `USE_RDMA` address when
set, and `0.0.0.0` when unset, so with `USE_RDMA` unset only a peer address
of `0.0.0.0` is intercepted and every other peer goes to plain TCP.  The
older shim intercepts no socket at all: its stream-type condition compares
the `getsockopt` return status (0 on success) with `SOCK_STREAM` and never
holds, so its `accept` leaves the bridge unchanged on every path with a
successful `getsockopt`. -/
theorem C6_amended_selector (isTcp : Bool) (a peer : Nat) (cs : Int)
    (rdmable : List Int) (sn ct : Bool) (fam : Int) (bridge : List Int)
    (hpeer : peer ≠ 0) (hcs : 0 ≤ cs) :
    shouldClientIntercept isTcp none peer = false
      ∧ (shouldClientIntercept isTcp (some a) peer = true ↔ isTcp = true ∧ peer = a)
      ∧ accept_p2 cs (shouldClientIntercept isTcp none peer) rdmable = (SUCCESS, rdmable)
      ∧ shouldServerIntercept isTcp (some a) peer
          = shouldClientIntercept isTcp (some a) peer
      ∧ intercept_p0 0 fam = false
      ∧ (accept_p0 cs 0 sn fam ct bridge).2 = bridge := by
  have h1 : shouldClientIntercept isTcp none peer = false := by
    simp [shouldClientIntercept, getRDMAReachable, hpeer]
  have hip : intercept_p0 0 fam = false := by
    simp [intercept_p0, SOCK_STREAM]
  refine ⟨h1, ?_, ?_, rfl, hip, ?_⟩
  · simp [shouldClientIntercept, getRDMAReachable, shouldServerIntercept,
      Bool.and_eq_true, beq_iff_eq]
  · rw [h1]
    unfold accept_p2
    rw [if_neg (by omega)]
    simp
  · unfold accept_p0
    rw [if_neg (show ¬cs < 0 by omega), if_neg (show ¬(0 : Int) < 0 by omega)]
    by_cases hsn : sn = true
    · rw [if_neg (by simp [hsn]), if_pos (by simp [hip])]
    · rw [if_pos (by simp [hsn])]

/-- Witness for C6 amended: with `USE_RDMA` unset a peer at address 1 is not
intercepted and the accepted connection is answered with `SUCCESS`; with
`USE_RDMA` set to address 1 the same peer is intercepted; the older shim's
accept with a successful `getsockopt` leaves the bridge untouched. -/
theorem C6_amended_selector_witness :
    shouldClientIntercept true none 1 = false
      ∧ (shouldClientIntercept true (some 1) 1 = true ↔ true = true ∧ 1 = 1)
      ∧ accept_p2 7 (shouldClientIntercept true none 1) [] = (SUCCESS, [])
      ∧ shouldServerIntercept true (some 1) 1 = shouldClientIntercept true (some 1) 1
      ∧ intercept_p0 0 AF_INET = false
      ∧ (accept_p0 7 0 true AF_INET true [9]).2 = [9] :=
  C6_amended_selector true 1 1 7 [] true true AF_INET [9] (by decide) (by decide)

/-- C7: `fork` increments the fork-generation counter in the child only, and
for a socket marked RDMA-capable that is not yet bridged the ring is
constructed lazily on the first `write` (or `read`) exactly when the process
generation equals the configured `RDMA_FORKGEN` target; in any other
generation the call falls through to plain TCP. -/
theorem C7_fork_generation_gating (s : ShimState) (target fd n : Nat) (ok : Bool)
    (h1 : fd ∉ s.bridge) (h2 : fd ∈ s.rdmable) :
    (fork_p2 s).1.forkGeneration = s.forkGeneration
      ∧ (fork_p2 s).2.forkGeneration = s.forkGeneration + 1
      ∧ write_p2 s target true fd n
          = (if s.forkGeneration = target then WriteResult.established n
             else WriteResult.tcp)
      ∧ (s.forkGeneration = target →
          (write_p2_state s target fd).bridge = fd :: s.bridge)
      ∧ (s.forkGeneration ≠ target → write_p2 s target ok fd n = WriteResult.tcp) := by
  refine ⟨rfl, rfl, ?_, ?_, ?_⟩
  · unfold write_p2
    rw [if_neg h1]
    by_cases hg : s.forkGeneration = target
    · rw [if_pos ⟨hg, h2⟩, if_pos hg]
      simp
    · rw [if_neg (by tauto), if_neg hg]
  · intro hg
    unfold write_p2_state
    rw [if_neg h1, if_pos ⟨hg, h2⟩]
  · intro hg
    unfold write_p2
    rw [if_neg h1, if_neg (by tauto)]

/-- Witness for C7 at a concrete shim state: descriptor 4 is marked but not
bridged, the child of a fork moves to generation 1, and in generation 1 with
target 1 the ring is established lazily on `write`. -/
theorem C7_fork_generation_gating_witness :
    (fork_p2 { bridge := [], rdmable := [4], dontCloseRDMA := true
               forkGeneration := 1 }).1.forkGeneration = 1
      ∧ (fork_p2 { bridge := [], rdmable := [4], dontCloseRDMA := true
                   forkGeneration := 1 }).2.forkGeneration = 1 + 1
      ∧ write_p2 { bridge := [], rdmable := [4], dontCloseRDMA := true
                   forkGeneration := 1 } 1 true 4 10
          = (if (1 : Nat) = 1 then WriteResult.established 10 else WriteResult.tcp)
      ∧ ((1 : Nat) = 1 →
          (write_p2_state { bridge := [], rdmable := [4], dontCloseRDMA := true
                            forkGeneration := 1 } 1 4).bridge = 4 :: [])
      ∧ ((1 : Nat) ≠ 1 →
          write_p2 { bridge := [], rdmable := [4], dontCloseRDMA := true
                     forkGeneration := 1 } 1 true 4 10 = WriteResult.tcp) :=
  C7_fork_generation_gating
    { bridge := [], rdmable := [4], dontCloseRDMA := true, forkGeneration := 1 }
    1 4 10 true (by decide) (by decide)

/-- C8 counterexample: a poll over a mixed array (bridged descriptor 1,
unbridged descriptor 2) returns `ERROR` before the zeroing loop runs, so
entry 0 still carries its incoming `revents = 7` when the call returns —
refuting the claim that every entry's `revents` equals 0 on return. -/
theorem C8_mixed_poll_keeps_revents :
    poll_p2 [1] (fun _ => false) (fun _ => false) 0 (fun _ => 0) 1
        [{ fd := 1, events := 1, revents := 7 }, { fd := 2, events := 1, revents := 0 }]
      = PollReturn.ret ERROR
          [{ fd := 1, events := 1, revents := 7 }, { fd := 2, events := 1, revents := 0 }]
      ∧ ¬(∀ p ∈ [({ fd := 1, events := 1, revents := 7 } : PollFd),
            { fd := 2, events := 1, revents := 0 }], p.revents = 0) := by
  decide

/-- C8 amended: whenever the overridden poll returns, either every entry's
`revents` equals 0 (all-RDMA and all-TCP arrays, whatever the kernel or the
rings reported), or the call took the mixed RDMA/TCP error path, which
returns `ERROR` with every entry left exactly as passed in. -/
theorem C8_amended_revents_zeroed (bridge : List Nat)
    (hasData keepWaiting : Nat → Bool) (realN : Int) (realRe : Nat → Nat)
    (fuel : Nat) (fds fds2 : List PollFd) (n : Int)
    (h : poll_p2 bridge hasData keepWaiting realN realRe fuel fds
      = PollReturn.ret n fds2) :
    (∀ p ∈ fds2, p.revents = 0) ∨ (n = ERROR ∧ fds2 = fds) := by
  unfold poll_p2 at h
  split at h
  · rename_i hemp
    injection h with hn hf
    left
    subst hf
    intro p hp
    rw [List.isEmpty_iff.mp hemp] at hp
    exact absurd hp (List.not_mem_nil p)
  · split at h
    · injection h with hn hf
      left
      subst hf
      exact zeroRevents_mem _
    · split at h
      · split at h
        · injection h with hn hf
          left
          subst hf
          exact zeroRevents_mem _
        · exact PollReturn.noConfusion h
      · injection h with hn hf
        right
        exact ⟨hn.symm, hf.symm⟩

/-- Witness for C8 amended: a pure-TCP poll whose kernel result is 5 comes
back with the single entry's `revents` zeroed. -/
theorem C8_amended_revents_zeroed_witness :
    (∀ p ∈ [({ fd := 3, events := 1, revents := 0 } : PollFd)], p.revents = 0)
      ∨ ((5 : Int) = ERROR
          ∧ [({ fd := 3, events := 1, revents := 0 } : PollFd)]
              = [{ fd := 3, events := 1, revents := 9 }]) :=
  C8_amended_revents_zeroed [] (fun _ => false) (fun _ => false) 5 (fun _ => 0) 1
    [{ fd := 3, events := 1, revents := 9 }] [{ fd := 3, events := 1, revents := 0 }]
    5 (by decide)

/-- C9: the overridden `accept` of the newer shim answers a successfully
accepted but not intercepted connection with `SUCCESS`, i.e. `0`, rather than
the new client descriptor; and every non-error return of the older shim's
`accept` is `0` as well, whatever the outcomes of its internal calls. -/
theorem C9_accept_returns_success (cs so : Int) (sn : Bool) (fam : Int) (ct : Bool)
    (rdmable bridge : List Int) (hcs : 0 ≤ cs) :
    (accept_p2 cs false rdmable).1 = SUCCESS
      ∧ ((accept_p0 cs so sn fam ct bridge).1 = ERROR
          ∨ (accept_p0 cs so sn fam ct bridge).1 = SUCCESS) := by
  constructor
  · unfold accept_p2
    rw [if_neg (by omega)]
    simp
  · unfold accept_p0
    split
    · left; rfl
    · split
      · left; rfl
      · split
        · left; rfl
        · split
          · right; rfl
          · split
            · right; rfl
            · left; rfl

/-- Witness for C9: accepting client descriptor 7 without interception
returns 0, and the older shim's accept with every internal call succeeding
returns 0 too. -/
theorem C9_accept_returns_success_witness :
    (accept_p2 7 false []).1 = SUCCESS
      ∧ ((accept_p0 7 0 true AF_INET true []).1 = ERROR
          ∨ (accept_p0 7 0 true AF_INET true []).1 = SUCCESS) :=
  C9_accept_returns_success 7 0 true AF_INET true [] [] (by decide)

/-- C10: for a poll whose descriptors are all bridged, any entry requesting
`POLLOUT` is counted as ready on the very first pass, regardless of ring free
space or peer progress (`hasData` and the timing oracle are universally
quantified), so the call returns after that single pass with a positive
count. -/
theorem C10_pollout_ready_immediately (bridge : List Nat)
    (hasData keepWaiting : Nat → Bool) (realN : Int) (realRe : Nat → Nat)
    (fuel : Nat) (fds : List PollFd)
    (hall : fds.all (fun p => decide (p.fd ∈ bridge)) = true)
    (hne : fds ≠ [])
    (hout : ∃ p ∈ fds, p.events &&& POLLOUT ≠ 0)
    (hfuel : 1 ≤ fuel) :
    poll_p2 bridge hasData keepWaiting realN realRe fuel fds
        = PollReturn.ret (Int.ofNat (rdmaPass hasData fds).1)
            (zeroRevents (rdmaPass hasData fds).2)
      ∧ 0 < Int.ofNat (rdmaPass hasData fds).1 := by
  have hpos : 0 < (rdmaPass hasData fds).1 := rdmaPass_pos hasData fds hout
  obtain ⟨f, rfl⟩ : ∃ f, fuel = f + 1 := ⟨fuel - 1, by omega⟩
  have hloop : pollLoop hasData keepWaiting (f + 1) 0 0 fds
      = some ((rdmaPass hasData fds).1, (rdmaPass hasData fds).2) := by
    unfold pollLoop
    rw [if_pos (by simpa using hpos), Nat.zero_add]
  constructor
  · unfold poll_p2
    rw [if_neg ?notempty]
    case notempty =>
      simpa [List.isEmpty_iff] using hne
    rw [if_neg ?notallout]
    case notallout =>
      obtain ⟨p, hp, _⟩ := hout
      intro hcon
      have hin := List.all_eq_true.mp hall p hp
      have hnotin := List.all_eq_true.mp hcon p hp
      simp at hin hnotin
      exact hnotin hin
    rw [if_pos hall, hloop]
  · exact Int.ofNat_pos.mpr hpos

/-- Witness for C10: a single bridged entry requesting only `POLLOUT` on a
ring with no incoming data makes poll return immediately with count 1. -/
theorem C10_pollout_ready_immediately_witness :
    poll_p2 [1] (fun _ => false) (fun _ => false) 0 (fun _ => 0) 1
        [{ fd := 1, events := 4, revents := 0 }]
        = PollReturn.ret
            (Int.ofNat (rdmaPass (fun _ => false)
              [{ fd := 1, events := 4, revents := 0 }]).1)
            (zeroRevents (rdmaPass (fun _ => false)
              [{ fd := 1, events := 4, revents := 0 }]).2)
      ∧ 0 < Int.ofNat (rdmaPass (fun _ => false)
          [{ fd := 1, events := 4, revents := 0 }]).1 :=
  C10_pollout_ready_immediately [1] (fun _ => false) (fun _ => false) 0 (fun _ => 0)
    1 [{ fd := 1, events := 4, revents := 0 }] (by decide) (by decide)
    ⟨{ fd := 1, events := 4, revents := 0 }, by decide, by decide⟩ (by decide)
